import Mathlib

/-!
Verification of the points-ledger core of the rewards system:
the task-approval award path (src/routes/tasks.py, verify_task),
the perk claim/refund protocol (src/routes/perks.py, claim_perk and
create_perk), and the request validators (src/models/users.py).

The backing store is modelled as lists of documents; the Mongo
operations used by the code are modelled faithfully:
  find_one              -> List.find?
  update_one            -> updateFirst (mutate the first matching doc)
  find_one_and_update   -> List.find? to obtain the matched doc,
                           updateFirst for the list effect
  insert_one            -> append
Integers are unbounded (Python ints).  Authentication (require_role in
src/utils/auth.py) is modelled as a lookup of the user document of the caller
by id followed by a role check; it performs a read of the users
collection before anything else, which the store-event log records.
-/

namespace RentShield

/-- Task lifecycle states, from src/routes/tasks.py:
pending -> submitted -> approved/rejected. -/
inductive TaskStatus
  | pending
  | submitted
  | approved
  | rejected
deriving DecidableEq, Repr

/-- A document of the users collection (the fields the ledger core reads). -/
structure User where
  userId : String
  role : String
  landlordId : String
  points : Int
deriving DecidableEq, Repr

/-- A document of the perks collection, as written by create_perk. -/
structure Perk where
  perkId : String
  pointsCost : Int
  availableQuantity : Int
  landlordId : String
  claimedCount : Int
deriving DecidableEq, Repr

/-- A document of the tasks collection, as written by create_task. -/
structure Task where
  taskId : String
  tenantId : String
  landlordId : String
  pointsReward : Int
  status : TaskStatus
  rejectionReason : String
deriving DecidableEq, Repr

/-- A document of the perk_claims collection, as written by claim_perk. -/
structure PerkClaim where
  perkId : String
  tenantId : String
  landlordId : String
  pointsSpent : Int
  fulfilled : Bool
deriving DecidableEq, Repr

/-- The collections the ledger core touches. -/
structure DB where
  users : List User
  perks : List Perk
  tasks : List Task
  perkClaims : List PerkClaim
deriving DecidableEq, Repr

/-- Mongo update_one semantics: apply `f` to the first document
matching `p`, leave everything else alone. -/
def updateFirst (p : α → Bool) (f : α → α) : List α → List α
  | [] => []
  | x :: xs => if p x then f x :: xs else x :: updateFirst p f xs

/-- Filter of the atomic debit in claim_perk:
user_id matches and points are at least the cost (the $gte guard). -/
def debitPred (uid : String) (cost : Int) : User → Bool :=
  fun u => u.userId == uid && decide (cost ≤ u.points)

/-- Filter on user_id alone (used by the refund update and the award). -/
def userPred (uid : String) : User → Bool :=
  fun u => u.userId == uid

/-- Filter of the atomic stock reservation in claim_perk:
perk_id matches and claimed_count < available_quantity (the $expr guard). -/
def stockPred (pid : String) : Perk → Bool :=
  fun q => q.perkId == pid && decide (q.claimedCount < q.availableQuantity)

/-- Filter on perk_id alone (the unlimited-stock increment). -/
def perkPred (pid : String) : Perk → Bool :=
  fun p => p.perkId == pid

/-- Filter of the atomic approval in verify_task:
task_id matches and status is still submitted. -/
def approvePred (tid : String) : Task → Bool :=
  fun t => t.taskId == tid && t.status == TaskStatus.submitted

/-- Filter of the initial task lookup in verify_task:
task_id and landlord_id both match. -/
def taskLandlordPred (tid lid : String) : Task → Bool :=
  fun t => t.taskId == tid && t.landlordId == lid

/-- Filter on task_id alone (the rejection update). -/
def taskIdPred (tid : String) : Task → Bool :=
  fun t => t.taskId == tid

/-- The atomic conditional debit of claim_perk: decrement points of the
first user matching the $gte-guarded filter. -/
def debitUpdate (uid : String) (cost : Int) (l : List User) : List User :=
  updateFirst (debitPred uid cost) (fun u => { u with points := u.points - cost }) l

/-- An unconditional points increment on a user document (the refund in claim_perk
and the award in verify_task are both this update_one). -/
def creditUpdate (uid : String) (amount : Int) (l : List User) : List User :=
  updateFirst (userPred uid) (fun u => { u with points := u.points + amount }) l

/-- The atomic conditional stock reservation: increment claimed_count of
the first perk matching the $expr-guarded filter. -/
def stockIncUpdate (pid : String) (l : List Perk) : List Perk :=
  updateFirst (stockPred pid) (fun q => { q with claimedCount := q.claimedCount + 1 }) l

/-- The unconditional claimed_count increment for unlimited perks. -/
def perkIncUpdate (pid : String) (l : List Perk) : List Perk :=
  updateFirst (perkPred pid) (fun q => { q with claimedCount := q.claimedCount + 1 }) l

/-- The atomic conditional status flip of the approval path. -/
def approveUpdate (tid : String) (l : List Task) : List Task :=
  updateFirst (approvePred tid) (fun t => { t with status := .approved }) l

/-- The rejection update: set status and rejection_reason by task_id. -/
def rejectUpdate (tid reason : String) (l : List Task) : List Task :=
  updateFirst (taskIdPred tid)
    (fun t => { t with status := .rejected, rejectionReason := reason }) l

/-- The perk_claims document written on a successful claim. -/
def newClaim (pid uid : String) (pk : Perk) : PerkClaim :=
  { perkId := pid, tenantId := uid, landlordId := pk.landlordId,
    pointsSpent := pk.pointsCost, fulfilled := false }

/-- Outcomes of claim_perk (src/routes/perks.py), one per exit point:
HTTP errors, the two snapshot pre-checks, the two atomic-step failures,
and success. -/
inductive ClaimOutcome
  | authError
  | notFound
  | notEligible
  | soldOutPre (remaining : Int)
  | insufficientPre (remaining : Int)
  | insufficientAtomic (remaining : Int)
  | soldOutRefund (remaining : Int)
  | success (remaining : Int)
deriving DecidableEq, Repr

/--
The claim protocol of claim_perk (src/routes/perks.py).

`snap` is the database state from which the reads of the request were taken:
the authenticated user document (require_role) and the perk document
(find_one).  `db` is the live state against which the two atomic
conditional updates run.  A fully sequential call has `snap = db`; a
call racing with other requests has `snap` an earlier state.
-/
def claimPerkWith (snap db : DB) (pid uid : String) : ClaimOutcome × DB :=
  match snap.users.find? (userPred uid) with
  | none => (.authError, db)
  | some user =>
    if user.role ≠ "tenant" then (.authError, db)
    else
      match snap.perks.find? (perkPred pid) with
      | none => (.notFound, db)
      | some perk =>
        if perk.landlordId ≠ user.landlordId then (.notEligible, db)
        else
          if perk.availableQuantity ≠ -1 ∧ perk.availableQuantity ≤ perk.claimedCount then
            (.soldOutPre user.points, db)
          else if user.points < perk.pointsCost then
            (.insufficientPre user.points, db)
          else
            match db.users.find? (debitPred uid perk.pointsCost) with
            | none => (.insufficientAtomic user.points, db)
            | some hit =>
              if perk.availableQuantity ≠ -1 then
                match db.perks.find? (stockPred pid) with
                | none =>
                  (.soldOutRefund (hit.points - perk.pointsCost + perk.pointsCost),
                    { db with users := creditUpdate uid perk.pointsCost (debitUpdate uid perk.pointsCost db.users) })
                | some _ =>
                  (.success (hit.points - perk.pointsCost),
                    { db with
                        users := debitUpdate uid perk.pointsCost db.users
                        perks := stockIncUpdate pid db.perks
                        perkClaims := db.perkClaims ++ [newClaim pid uid perk] })
              else
                (.success (hit.points - perk.pointsCost),
                  { db with
                      users := debitUpdate uid perk.pointsCost db.users
                      perks := perkIncUpdate pid db.perks
                      perkClaims := db.perkClaims ++ [newClaim pid uid perk] })

/-- A sequential claim_perk call: the reads and the atomic updates see
the same state. -/
def claimPerk (db : DB) (pid uid : String) : ClaimOutcome × DB :=
  claimPerkWith db db pid uid

/-- Drop leading whitespace characters. -/
def dropWhileWS : List Char → List Char
  | [] => []
  | c :: cs => if c.isWhitespace then dropWhileWS cs else c :: cs

/-- Python str.strip() on the reason field of the request: remove leading and
trailing whitespace. -/
def pyStrip (s : String) : String :=
  ⟨(dropWhileWS (dropWhileWS s.data).reverse).reverse⟩

/-- Store accesses of verify_task, in program order.  The users read is
the token lookup inside require_role (src/utils/auth.py); writes to the
notifications collection are outside the ledger core and not tracked. -/
inductive StoreEvent
  | readUsers
  | readTasks
  | writeTasks
  | writeUsers
deriving DecidableEq, Repr

/-- Outcomes of verify_task (src/routes/tasks.py), one per exit point. -/
inductive VerifyOutcome
  | authError
  | notFound
  | statusError (current : TaskStatus)
  | alreadyVerified
  | validationError
  | approvedOk
  | rejectedOk
deriving DecidableEq, Repr

structure VerifyResult where
  outcome : VerifyOutcome
  db : DB
  events : List StoreEvent
deriving DecidableEq, Repr

/--
The approval/rejection endpoint verify_task (src/routes/tasks.py).

`snap` is the state the reads of the request come from (the require_role user
lookup and the initial task find_one); `db` is the live state the
conditional status update and the points award run against.  The
`events` field records every store access the call performed, in order,
up to the point where the call returned or raised.
-/
def verifyTaskWith (snap db : DB) (tid lid : String)
    (approved : Bool) (reason : String) : VerifyResult :=
  match snap.users.find? (userPred lid) with
  | none => ⟨.authError, db, [.readUsers]⟩
  | some caller =>
    if caller.role ≠ "landlord" then ⟨.authError, db, [.readUsers]⟩
    else
      match snap.tasks.find? (taskLandlordPred tid lid) with
      | none => ⟨.notFound, db, [.readUsers, .readTasks]⟩
      | some task =>
        if task.status ≠ .submitted then
          ⟨.statusError task.status, db, [.readUsers, .readTasks]⟩
        else if approved then
          match db.tasks.find? (approvePred tid) with
          | none => ⟨.alreadyVerified, db, [.readUsers, .readTasks, .writeTasks]⟩
          | some _ =>
            ⟨.approvedOk,
              { db with
                  tasks := approveUpdate tid db.tasks
                  users := creditUpdate task.tenantId task.pointsReward db.users },
              [.readUsers, .readTasks, .writeTasks, .writeUsers, .readTasks]⟩
        else if pyStrip reason = "" then
          ⟨.validationError, db, [.readUsers, .readTasks]⟩
        else
          ⟨.rejectedOk, { db with tasks := rejectUpdate tid (pyStrip reason) db.tasks },
            [.readUsers, .readTasks, .writeTasks, .readTasks]⟩

/-- A sequential verify_task call. -/
def verifyTask (db : DB) (tid lid : String) (approved : Bool) (reason : String) :
    VerifyResult :=
  verifyTaskWith db db tid lid approved reason

/-- CreatePerkRequest (src/models/users.py): the pydantic request body
for create_perk, with the declared field defaults. -/
structure CreatePerkRequest where
  title : String
  description : String := ""
  pointsCost : Int
  availableQuantity : Int := -1
deriving DecidableEq, Repr

/-- The pydantic field constraints of CreatePerkRequest:
title 1..200 chars, description up to 2000 chars, points_cost >= 1.
available_quantity carries no constraint in the model. -/
def validCreatePerkRequest (r : CreatePerkRequest) : Bool :=
  decide (1 ≤ r.title.length) && decide (r.title.length ≤ 200) &&
  decide (r.description.length ≤ 2000) && decide (1 ≤ r.pointsCost)

/-- CreateTaskRequest (src/models/users.py), with the declared defaults:
points_reward defaults to 10, category to "general". -/
structure CreateTaskRequest where
  title : String
  description : String := ""
  tenantId : String
  pointsReward : Int := 10
  category : String := "general"
deriving DecidableEq, Repr

/-- The category pattern of CreateTaskRequest. -/
def validCategory (c : String) : Bool :=
  c == "cleaning" || c == "maintenance" || c == "energy_saving" ||
  c == "community" || c == "general"

/-- The pydantic field constraints of CreateTaskRequest:
title 1..200, description up to 2000, tenant_id 1..100,
points_reward between 1 and 500, category in the fixed set. -/
def validCreateTaskRequest (r : CreateTaskRequest) : Bool :=
  decide (1 ≤ r.title.length) && decide (r.title.length ≤ 200) &&
  decide (r.description.length ≤ 2000) &&
  decide (1 ≤ r.tenantId.length) && decide (r.tenantId.length ≤ 100) &&
  decide (1 ≤ r.pointsReward) && decide (r.pointsReward ≤ 500) &&
  validCategory r.category

inductive CreateOutcome
  | validationError
  | authError
  | tenantNotFound
  | created
deriving DecidableEq, Repr

/-- Filter of the tenant lookup in create_task: user_id, role tenant,
and landlord_id all match. -/
def tenantPred (tenId lid : String) : User → Bool :=
  fun u => u.userId == tenId && u.role == "tenant" && u.landlordId == lid

/-- create_perk (src/routes/perks.py): the framework rejects a body
violating the CreatePerkRequest constraints before the handler runs;
otherwise after the landlord-role check the perk document is inserted
with claimed_count = 0 and the requested available_quantity. -/
def createPerk (db : DB) (lid : String) (r : CreatePerkRequest) (newId : String) :
    CreateOutcome × DB :=
  if ¬ validCreatePerkRequest r then (.validationError, db)
  else
    match db.users.find? (userPred lid) with
    | none => (.authError, db)
    | some caller =>
      if caller.role ≠ "landlord" then (.authError, db)
      else
        (.created,
          { db with perks := db.perks ++
              [{ perkId := newId, pointsCost := r.pointsCost,
                 availableQuantity := r.availableQuantity,
                 landlordId := lid, claimedCount := 0 }] })

/-- create_task (src/routes/tasks.py): after request validation and the
landlord-role check, the assigned tenant must exist and belong to the
caller; the task is inserted with status pending. -/
def createTask (db : DB) (lid : String) (r : CreateTaskRequest) (newId : String) :
    CreateOutcome × DB :=
  if ¬ validCreateTaskRequest r then (.validationError, db)
  else
    match db.users.find? (userPred lid) with
    | none => (.authError, db)
    | some caller =>
      if caller.role ≠ "landlord" then (.authError, db)
      else
        match db.users.find? (tenantPred r.tenantId lid) with
        | none => (.tenantNotFound, db)
        | some _ =>
          (.created,
            { db with tasks := db.tasks ++
                [{ taskId := newId, tenantId := r.tenantId, landlordId := lid,
                   pointsReward := r.pointsReward, status := .pending,
                   rejectionReason := "" }] })

/-- The balance the users collection currently records for `uid`
(0 when there is no such user, matching user.get with default). -/
def getPointsD (db : DB) (uid : String) : Int :=
  ((db.users.find? (userPred uid)).map User.points).getD 0

/-- claimed_count and available_quantity of the perk `pid`. -/
def perkStock (db : DB) (pid : String) : Option (Int × Int) :=
  (db.perks.find? (perkPred pid)).map fun p => (p.claimedCount, p.availableQuantity)

/-- The points_reward of an approved task, 0 for any other status. -/
def approvedReward (t : Task) : Int :=
  if t.status = .approved then t.pointsReward else 0

def sumBalances (db : DB) : Int := (db.users.map User.points).sum

def sumApprovedRewards (db : DB) : Int := (db.tasks.map approvedReward).sum

def sumSpent (db : DB) : Int := (db.perkClaims.map PerkClaim.pointsSpent).sum

/-- The conservation law of the ledger: points awarded through approved
tasks, minus points recorded as spent on perk claims, equal the points
held in account balances. -/
def Conserv (db : DB) : Prop :=
  sumApprovedRewards db - sumSpent db = sumBalances db

/-- The valid documents produced by the request validators: every perk
costs at least 1 point and every task rewards between 1 and 500 points
(CreatePerkRequest and CreateTaskRequest, src/models/users.py). -/
def GoodDocs (db : DB) : Prop :=
  (∀ p ∈ db.perks, 1 ≤ p.pointsCost) ∧
  (∀ t ∈ db.tasks, 1 ≤ t.pointsReward ∧ t.pointsReward ≤ 500)

/-- A read snapshot is consistent with the live state on every field the
code never mutates: the available_quantity and points_cost of a perk, and the
points_reward and tenant_id of a task.  Any earlier state of the same run
satisfies this, since no route updates those fields. -/
def SnapAgrees (snap db : DB) : Prop :=
  (∀ p ∈ snap.perks, ∀ q ∈ db.perks, p.perkId = q.perkId →
    p.availableQuantity = q.availableQuantity ∧ p.pointsCost = q.pointsCost) ∧
  (∀ s ∈ snap.tasks, ∀ t ∈ db.tasks, s.taskId = t.taskId →
    s.pointsReward = t.pointsReward ∧ s.tenantId = t.tenantId)

def GoodSnap (snap db : DB) : Prop :=
  GoodDocs snap ∧ SnapAgrees snap db

/-- Every task is assigned a tenant that has a user document. -/
def TenantsExist (db : DB) : Prop :=
  ∀ t ∈ db.tasks, ∃ u ∈ db.users, u.userId = t.tenantId

/-- One API call against the live state `a`, whose reads were taken from
a snapshot consistent with `a` (GoodSnap): a perk claim, an approval, or
a rejection, producing the state `b`. -/
def Step (a b : DB) : Prop :=
  (∃ snap pid uid, GoodSnap snap a ∧ b = (claimPerkWith snap a pid uid).2) ∨
  (∃ snap tid lid r, GoodSnap snap a ∧ b = (verifyTaskWith snap a tid lid true r).db) ∨
  (∃ snap tid lid r, GoodSnap snap a ∧ b = (verifyTaskWith snap a tid lid false r).db)

/-- Like Step, but restricted to approve and claim calls. -/
def StepAC (a b : DB) : Prop :=
  (∃ snap pid uid, GoodSnap snap a ∧ b = (claimPerkWith snap a pid uid).2) ∨
  (∃ snap tid lid r, GoodSnap snap a ∧ b = (verifyTaskWith snap a tid lid true r).db)

inductive Reach : DB → DB → Prop
  | refl (db : DB) : Reach db db
  | step {a b c : DB} (h1 : Reach a b) (h2 : Step b c) : Reach a c

inductive ReachAC : DB → DB → Prop
  | refl (db : DB) : ReachAC db db
  | step {a b c : DB} (h1 : ReachAC a b) (h2 : StepAC b c) : ReachAC a c

/-- All recorded balances are non-negative. -/
def NonNeg (db : DB) : Prop := ∀ u ∈ db.users, 0 ≤ u.points

/-- Every perk document carrying the given id still has the fixed finite
quantity `q` and a claimed count within it. -/
def PerkBound (pid : String) (q : Int) (db : DB) : Prop :=
  ∀ p ∈ db.perks, p.perkId = pid → p.availableQuantity = q ∧ p.claimedCount ≤ q

/- Concrete documents used to run the model on explicit inputs. -/

def exLandlord : User :=
  { userId := "l1", role := "landlord", landlordId := "", points := 0 }

def exTenant : User :=
  { userId := "u1", role := "tenant", landlordId := "l1", points := 100 }

def exTenant0 : User := { exTenant with points := 0 }

def exTask : Task :=
  { taskId := "t1", tenantId := "u1", landlordId := "l1", pointsReward := 20,
    status := .submitted, rejectionReason := "" }

/-- A landlord, a tenant holding 100 points, one submitted task. -/
def exDbTask : DB :=
  { users := [exLandlord, exTenant], perks := [], tasks := [exTask], perkClaims := [] }

/-- Same population with a zero tenant balance (for conservation runs). -/
def exDbZero : DB :=
  { users := [exLandlord, exTenant0], perks := [], tasks := [exTask], perkClaims := [] }

/-- A perk that costs more than the tenant holds and is fully claimed. -/
def exPerkSoldOut : Perk :=
  { perkId := "p1", pointsCost := 150, availableQuantity := 1,
    landlordId := "l1", claimedCount := 1 }

def exDbSoldOut : DB :=
  { users := [exLandlord, exTenant], perks := [exPerkSoldOut],
    tasks := [], perkClaims := [] }

/-- A perk that costs more than the tenant holds but still has stock. -/
def exPerkOpen : Perk :=
  { perkId := "p1", pointsCost := 150, availableQuantity := 2,
    landlordId := "l1", claimedCount := 0 }

def exDbOpen : DB :=
  { users := [exLandlord, exTenant], perks := [exPerkOpen],
    tasks := [], perkClaims := [] }

/-- An affordable perk with stock. -/
def exPerkCheap : Perk :=
  { perkId := "p2", pointsCost := 60, availableQuantity := 2,
    landlordId := "l1", claimedCount := 0 }

def exDbCheap : DB :=
  { users := [exLandlord, exTenant], perks := [exPerkCheap],
    tasks := [], perkClaims := [] }

/-- The live state in which exPerkCheap has sold out (its two units
claimed) while a racing request still holds the exDbCheap snapshot. -/
def exDbCheapSold : DB :=
  { exDbCheap with perks := [{ exPerkCheap with claimedCount := 2 }] }

/-- A creation request with a negative, non-sentinel quantity. -/
def exNegReq : CreatePerkRequest :=
  { title := "Discount", pointsCost := 10, availableQuantity := -5 }

theorem updateFirst_eq_of_find?_none {p : α → Bool} {f : α → α} {l : List α}
    (h : l.find? p = none) : updateFirst p f l = l := by
  induction l with
  | nil => rfl
  | cons x xs ih =>
    by_cases hx : p x = true
    · rw [List.find?_cons_of_pos _ hx] at h
      exact absurd h (by simp)
    · rw [List.find?_cons_of_neg _ (by simpa using hx)] at h
      have hx2 : p x = false := by simpa using hx
      simp [updateFirst, hx2, ih h]

theorem mem_updateFirst {p : α → Bool} {f : α → α} {l : List α} {x : α}
    (hx : x ∈ updateFirst p f l) :
    x ∈ l ∨ ∃ y, y ∈ l ∧ p y = true ∧ x = f y := by
  induction l with
  | nil => simp [updateFirst] at hx
  | cons a as ih =>
    by_cases ha : p a = true
    · simp only [updateFirst, if_pos ha] at hx
      rcases List.mem_cons.mp hx with h | h
      · exact Or.inr ⟨a, List.mem_cons_self a as, ha, h⟩
      · exact Or.inl (List.mem_cons_of_mem a h)
    · simp only [updateFirst, if_neg ha] at hx
      rcases List.mem_cons.mp hx with h | h
      · exact Or.inl (h ▸ List.mem_cons_self a as)
      · rcases ih h with h2 | ⟨y, hy, hpy, hxy⟩
        · exact Or.inl (List.mem_cons_of_mem a h2)
        · exact Or.inr ⟨y, List.mem_cons_of_mem a hy, hpy, hxy⟩

theorem map_updateFirst {p : α → Bool} {f : α → α} (g : α → β) {l : List α}
    (hg : ∀ y, p y = true → g (f y) = g y) :
    (updateFirst p f l).map g = l.map g := by
  induction l with
  | nil => rfl
  | cons a as ih =>
    by_cases ha : p a = true
    · simp only [updateFirst, if_pos ha, List.map_cons, hg a ha]
    · simp only [updateFirst, if_neg ha, List.map_cons, ih]

theorem sum_map_updateFirst {p : α → Bool} {f : α → α} (g : α → Int)
    {l : List α} {y : α} (h : l.find? p = some y) :
    ((updateFirst p f l).map g).sum = (l.map g).sum + (g (f y) - g y) := by
  induction l with
  | nil => simp [List.find?] at h
  | cons a as ih =>
    by_cases ha : p a = true
    · rw [List.find?_cons_of_pos _ ha] at h
      cases h
      simp only [updateFirst, if_pos ha, List.map_cons, List.sum_cons]
      ring
    · rw [List.find?_cons_of_neg _ (by simpa using ha)] at h
      simp only [updateFirst, if_neg ha, List.map_cons, List.sum_cons, ih h]
      ring

theorem fmem_updateFirst {p : α → Bool} {f : α → α} {l : List α} {y : α}
    (h : l.find? p = some y) : f y ∈ updateFirst p f l := by
  induction l with
  | nil => simp [List.find?] at h
  | cons a as ih =>
    by_cases ha : p a = true
    · rw [List.find?_cons_of_pos _ ha] at h
      cases h
      simp [updateFirst, if_pos ha]
    · rw [List.find?_cons_of_neg _ (by simpa using ha)] at h
      simp only [updateFirst, if_neg ha]
      exact List.mem_cons_of_mem a (ih h)

/-- In a collection with pairwise-distinct keys, any predicate that is
key-determined and holds of the member `y` is first satisfied at `y`. -/
theorem find?_eq_some_of_nodup_key (key : α → String) (k : String)
    {q : α → Bool} {l : List α} {y : α}
    (hnd : (l.map key).Nodup) (hy : y ∈ l) (hqy : q y = true)
    (hq : ∀ x, q x = true → key x = k) (hky : key y = k) :
    l.find? q = some y := by
  induction l with
  | nil => simp at hy
  | cons a as ih =>
    rw [List.map_cons, List.nodup_cons] at hnd
    by_cases ha : q a = true
    · rw [List.find?_cons_of_pos _ ha]
      rcases List.mem_cons.mp hy with h | h
      · rw [h]
      · have hmem : key a ∈ as.map key := by
          rw [hq a ha, ← hky]
          exact List.mem_map_of_mem key h
        exact absurd hmem hnd.1
    · rw [List.find?_cons_of_neg _ (by simpa using ha)]
      rcases List.mem_cons.mp hy with h | h
      · exact absurd (h ▸ hqy) (by simpa using ha)
      · exact ih hnd.2 h

/-- If the first match of `p` is killed by `f` (which preserves keys) and
`p` is key-determined, no match of `p` remains after the update. -/
theorem find?_updateFirst_none (key : α → String) (k : String)
    {p : α → Bool} {f : α → α} {l : List α}
    (hnd : (l.map key).Nodup)
    (hkey : ∀ x, p x = true → key x = k)
    (hkill : ∀ x, p x = true → p (f x) = false) :
    (updateFirst p f l).find? p = none := by
  induction l with
  | nil => rfl
  | cons a as ih =>
    rw [List.map_cons, List.nodup_cons] at hnd
    by_cases ha : p a = true
    · simp only [updateFirst, if_pos ha]
      rw [List.find?_cons_of_neg _ (by simp [hkill a ha])]
      rw [List.find?_eq_none]
      intro x hx hpx
      have hmem : key a ∈ as.map key := by
        rw [hkey a ha, ← hkey x hpx]
        exact List.mem_map_of_mem key hx
      exact hnd.1 hmem
    · simp only [updateFirst, if_neg ha]
      rw [List.find?_cons_of_neg _ (by simpa using ha)]
      exact ih hnd.2


theorem userPred_eq {uid : String} {u : User} (h : userPred uid u = true) :
    u.userId = uid := by
  simpa [userPred] using h

theorem userPred_of {uid : String} {u : User} (h : u.userId = uid) :
    userPred uid u = true := by
  simp [userPred, h]

theorem debitPred_eq {uid : String} {cost : Int} {u : User}
    (h : debitPred uid cost u = true) : u.userId = uid ∧ cost ≤ u.points := by
  simpa [debitPred] using h

theorem stockPred_eq {pid : String} {p : Perk} (h : stockPred pid p = true) :
    p.perkId = pid ∧ p.claimedCount < p.availableQuantity := by
  simpa [stockPred] using h

theorem perkPred_eq {pid : String} {p : Perk} (h : perkPred pid p = true) :
    p.perkId = pid := by
  simpa [perkPred] using h

theorem approvePred_eq {tid : String} {t : Task} (h : approvePred tid t = true) :
    t.taskId = tid ∧ t.status = .submitted := by
  have h2 := h
  simp only [approvePred, Bool.and_eq_true, beq_iff_eq] at h2
  exact h2

theorem approvePred_of {tid : String} {t : Task} (h1 : t.taskId = tid)
    (h2 : t.status = .submitted) : approvePred tid t = true := by
  simp [approvePred, h1, h2]

theorem taskLandlordPred_eq {tid lid : String} {t : Task}
    (h : taskLandlordPred tid lid t = true) : t.taskId = tid ∧ t.landlordId = lid := by
  simpa [taskLandlordPred] using h

theorem taskIdPred_eq {tid : String} {t : Task} (h : taskIdPred tid t = true) :
    t.taskId = tid := by
  simpa [taskIdPred] using h

theorem taskIdPred_of {tid : String} {t : Task} (h : t.taskId = tid) :
    taskIdPred tid t = true := by
  simp [taskIdPred, h]

theorem exists_find?_eq_some {p : α → Bool} {l : List α} {x : α}
    (hx : x ∈ l) (hp : p x = true) : ∃ y, l.find? p = some y := by
  induction l with
  | nil => simp at hx
  | cons a as ih =>
    by_cases ha : p a = true
    · exact ⟨a, List.find?_cons_of_pos _ ha⟩
    · rcases List.mem_cons.mp hx with h | h
      · exact absurd (h ▸ hp) (by simpa using ha)
      · obtain ⟨y, hy⟩ := ih h
        exact ⟨y, by rw [List.find?_cons_of_neg _ (by simpa using ha)]; exact hy⟩

/-- Branch analysis of claimPerkWith: either the call leaves the state
unchanged (and is neither a success nor a refunded sold-out), or it took
the refund branch, or one of the two success branches. -/
theorem claimPerkWith_cases (snap db : DB) (pid uid : String) :
    (∃ o, claimPerkWith snap db pid uid = (o, db) ∧
      (∀ rem, o ≠ .success rem) ∧ (∀ rem, o ≠ .soldOutRefund rem)) ∨
    (∃ user pk hit,
      snap.users.find? (userPred uid) = some user ∧
      snap.perks.find? (perkPred pid) = some pk ∧
      db.users.find? (debitPred uid pk.pointsCost) = some hit ∧
      pk.availableQuantity ≠ -1 ∧
      db.perks.find? (stockPred pid) = none ∧
      claimPerkWith snap db pid uid =
        (.soldOutRefund (hit.points - pk.pointsCost + pk.pointsCost),
          { db with users := creditUpdate uid pk.pointsCost (debitUpdate uid pk.pointsCost db.users) })) ∨
    (∃ user pk hit w,
      snap.users.find? (userPred uid) = some user ∧
      snap.perks.find? (perkPred pid) = some pk ∧
      db.users.find? (debitPred uid pk.pointsCost) = some hit ∧
      pk.availableQuantity ≠ -1 ∧
      db.perks.find? (stockPred pid) = some w ∧
      claimPerkWith snap db pid uid =
        (.success (hit.points - pk.pointsCost),
          { db with
              users := debitUpdate uid pk.pointsCost db.users
              perks := stockIncUpdate pid db.perks
              perkClaims := db.perkClaims ++ [newClaim pid uid pk] })) ∨
    (∃ user pk hit,
      snap.users.find? (userPred uid) = some user ∧
      snap.perks.find? (perkPred pid) = some pk ∧
      db.users.find? (debitPred uid pk.pointsCost) = some hit ∧
      pk.availableQuantity = -1 ∧
      claimPerkWith snap db pid uid =
        (.success (hit.points - pk.pointsCost),
          { db with
              users := debitUpdate uid pk.pointsCost db.users
              perks := perkIncUpdate pid db.perks
              perkClaims := db.perkClaims ++ [newClaim pid uid pk] })) := by
  unfold claimPerkWith
  split
  · exact Or.inl ⟨_, rfl, fun rem => by simp, fun rem => by simp⟩
  next user hu =>
    split
    · exact Or.inl ⟨_, rfl, fun rem => by simp, fun rem => by simp⟩
    next hrole =>
      split
      · exact Or.inl ⟨_, rfl, fun rem => by simp, fun rem => by simp⟩
      next pk hp =>
        split
        · exact Or.inl ⟨_, rfl, fun rem => by simp, fun rem => by simp⟩
        next hel =>
          split
          · exact Or.inl ⟨_, rfl, fun rem => by simp, fun rem => by simp⟩
          next hsold =>
            split
            · exact Or.inl ⟨_, rfl, fun rem => by simp, fun rem => by simp⟩
            next hpts =>
              split
              · exact Or.inl ⟨_, rfl, fun rem => by simp, fun rem => by simp⟩
              next hit hd =>
                split
                next hq =>
                  split
                  next hs =>
                    exact Or.inr (Or.inl ⟨user, pk, hit, hu, hp, hd, hq, hs, rfl⟩)
                  next w hs =>
                    exact Or.inr (Or.inr (Or.inl
                      ⟨user, pk, hit, w, hu, hp, hd, hq, hs, rfl⟩))
                next hq =>
                  exact Or.inr (Or.inr (Or.inr
                    ⟨user, pk, hit, hu, hp, hd, not_not.mp hq, rfl⟩))

/-- Branch analysis of verifyTaskWith: either the call leaves the state
unchanged, or it is the successful approval, or the successful
rejection. -/
theorem verifyTaskWith_cases (snap db : DB) (tid lid : String)
    (ap : Bool) (r : String) :
    ((verifyTaskWith snap db tid lid ap r).db = db ∧
      (verifyTaskWith snap db tid lid ap r).outcome ≠ .approvedOk ∧
      (verifyTaskWith snap db tid lid ap r).outcome ≠ .rejectedOk) ∨
    (∃ caller task w,
      snap.users.find? (userPred lid) = some caller ∧
      snap.tasks.find? (taskLandlordPred tid lid) = some task ∧
      task.status = .submitted ∧ ap = true ∧
      db.tasks.find? (approvePred tid) = some w ∧
      verifyTaskWith snap db tid lid ap r =
        ⟨.approvedOk,
          { db with
              tasks := approveUpdate tid db.tasks
              users := creditUpdate task.tenantId task.pointsReward db.users },
          [.readUsers, .readTasks, .writeTasks, .writeUsers, .readTasks]⟩) ∨
    (ap = false ∧ pyStrip r ≠ "" ∧
      verifyTaskWith snap db tid lid ap r =
        ⟨.rejectedOk, { db with tasks := rejectUpdate tid (pyStrip r) db.tasks },
          [.readUsers, .readTasks, .writeTasks, .readTasks]⟩) := by
  unfold verifyTaskWith
  split
  · exact Or.inl ⟨rfl, by simp, by simp⟩
  next caller hc =>
    split
    · exact Or.inl ⟨rfl, by simp, by simp⟩
    next hrole =>
      split
      · exact Or.inl ⟨rfl, by simp, by simp⟩
      next task ht =>
        split
        · exact Or.inl ⟨rfl, by simp, by simp⟩
        next hstat =>
          split
          next hap =>
            split
            · exact Or.inl ⟨rfl, by simp, by simp⟩
            next w hw =>
              exact Or.inr (Or.inl
                ⟨caller, task, w, hc, ht, not_not.mp hstat, hap, hw, rfl⟩)
          next hap =>
            split
            next hr => exact Or.inl ⟨rfl, by simp, by simp⟩
            next hr =>
              refine Or.inr (Or.inr ⟨?_, hr, rfl⟩)
              cases hb : ap
              · rfl
              · exact absurd hb hap

/- Preservation of non-negative balances. -/

theorem nonNeg_debitUpdate {uid : String} {cost : Int} {l : List User}
    (h : ∀ u ∈ l, 0 ≤ u.points) : ∀ u ∈ debitUpdate uid cost l, 0 ≤ u.points := by
  intro u hu
  rcases mem_updateFirst hu with hm | ⟨y, hy, hpy, rfl⟩
  · exact h u hm
  · have h2 := (debitPred_eq hpy).2
    simp only []
    omega

theorem nonNeg_creditUpdate {uid : String} {amount : Int} {l : List User}
    (ha : 0 ≤ amount) (h : ∀ u ∈ l, 0 ≤ u.points) :
    ∀ u ∈ creditUpdate uid amount l, 0 ≤ u.points := by
  intro u hu
  rcases mem_updateFirst hu with hm | ⟨y, hy, hpy, rfl⟩
  · exact h u hm
  · have h2 := h y hy
    simp only []
    omega

theorem claim_nonNeg (snap db : DB) (pid uid : String) (hs : GoodSnap snap db)
    (h0 : NonNeg db) : NonNeg (claimPerkWith snap db pid uid).2 := by
  rcases claimPerkWith_cases snap db pid uid with
    ⟨o, he, _, _⟩ | ⟨user, pk, hit, hu, hp, hd, hq, hsn, he⟩ |
    ⟨user, pk, hit, w, hu, hp, hd, hq, hsn, he⟩ | ⟨user, pk, hit, hu, hp, hd, hq, he⟩
  · rw [he]; exact h0
  · rw [he]
    have hcost : 1 ≤ pk.pointsCost := hs.1.1 pk (List.mem_of_find?_eq_some hp)
    exact nonNeg_creditUpdate (by omega) (nonNeg_debitUpdate h0)
  · rw [he]; exact nonNeg_debitUpdate h0
  · rw [he]; exact nonNeg_debitUpdate h0

theorem verify_nonNeg (snap db : DB) (tid lid : String) (ap : Bool) (r : String)
    (hs : GoodSnap snap db) (h0 : NonNeg db) :
    NonNeg (verifyTaskWith snap db tid lid ap r).db := by
  rcases verifyTaskWith_cases snap db tid lid ap r with
    ⟨he, _, _⟩ | ⟨caller, task, w, hc, ht, hsub, hap, hw, he⟩ | ⟨hap, hr, he⟩
  · rw [he]; exact h0
  · rw [he]
    have hrew : 1 ≤ task.pointsReward := (hs.1.2 task (List.mem_of_find?_eq_some ht)).1
    exact nonNeg_creditUpdate (by omega) h0
  · rw [he]; exact h0

theorem step_nonNeg {a b : DB} (h : Step a b) (h0 : NonNeg a) : NonNeg b := by
  rcases h with ⟨snap, pid, uid, hs, rfl⟩ | ⟨snap, tid, lid, r, hs, rfl⟩ |
    ⟨snap, tid, lid, r, hs, rfl⟩
  · exact claim_nonNeg snap a pid uid hs h0
  · exact verify_nonNeg snap a tid lid true r hs h0
  · exact verify_nonNeg snap a tid lid false r hs h0

theorem reach_nonNeg {a b : DB} (h : Reach a b) (h0 : NonNeg a) : NonNeg b := by
  induction h with
  | refl => exact h0
  | step h1 h2 ih => exact step_nonNeg h2 ih

/- Preservation of the finite-stock bound. -/

theorem perkBound_stockInc {pid0 pid : String} {q : Int} {l : List Perk}
    (h : ∀ p ∈ l, p.perkId = pid0 → p.availableQuantity = q ∧ p.claimedCount ≤ q) :
    ∀ p ∈ stockIncUpdate pid l, p.perkId = pid0 →
      p.availableQuantity = q ∧ p.claimedCount ≤ q := by
  intro p hp hid
  rcases mem_updateFirst hp with hm | ⟨y, hy, hpy, rfl⟩
  · exact h p hm hid
  · have hy2 := h y hy hid
    have hlt := (stockPred_eq hpy).2
    refine ⟨hy2.1, ?_⟩
    show y.claimedCount + 1 ≤ q
    omega

theorem claim_perkBound (pid0 : String) (q : Int) (hq : 0 ≤ q)
    (snap db : DB) (pid uid : String) (hs : GoodSnap snap db)
    (h0 : PerkBound pid0 q db) : PerkBound pid0 q (claimPerkWith snap db pid uid).2 := by
  rcases claimPerkWith_cases snap db pid uid with
    ⟨o, he, _, _⟩ | ⟨user, pk, hit, hu, hp, hd, hqf, hsn, he⟩ |
    ⟨user, pk, hit, w, hu, hp, hd, hqf, hsn, he⟩ | ⟨user, pk, hit, hu, hp, hd, hqf, he⟩
  · rw [he]; exact h0
  · rw [he]; exact h0
  · rw [he]; exact perkBound_stockInc h0
  · rw [he]
    intro p hp2 hid
    rcases mem_updateFirst hp2 with hm | ⟨y, hy, hpy, rfl⟩
    · exact h0 p hm hid
    · exfalso
      have hyid : y.perkId = pid0 := hid
      have hy2 := h0 y hy hyid
      have hpk : pk.perkId = pid := perkPred_eq (List.find?_some hp)
      have hyp : y.perkId = pid := perkPred_eq hpy
      have hagree := (hs.2.1 pk (List.mem_of_find?_eq_some hp) y hy (by rw [hpk, hyp])).1
      omega

theorem verify_perkBound (pid0 : String) (q : Int) (snap db : DB)
    (tid lid : String) (ap : Bool) (r : String)
    (h0 : PerkBound pid0 q db) :
    PerkBound pid0 q (verifyTaskWith snap db tid lid ap r).db := by
  rcases verifyTaskWith_cases snap db tid lid ap r with
    ⟨he, _, _⟩ | ⟨caller, task, w, hc, ht, hsub, hap, hw, he⟩ | ⟨hap, hr, he⟩
  · rw [he]; exact h0
  · rw [he]; exact h0
  · rw [he]; exact h0

theorem step_perkBound {a b : DB} (pid0 : String) (q : Int) (hq : 0 ≤ q)
    (h : Step a b) (h0 : PerkBound pid0 q a) : PerkBound pid0 q b := by
  rcases h with ⟨snap, pid, uid, hs, rfl⟩ | ⟨snap, tid, lid, r, hs, rfl⟩ |
    ⟨snap, tid, lid, r, hs, rfl⟩
  · exact claim_perkBound pid0 q hq snap a pid uid hs h0
  · exact verify_perkBound pid0 q snap a tid lid true r h0
  · exact verify_perkBound pid0 q snap a tid lid false r h0

theorem reach_perkBound {a b : DB} (pid0 : String) (q : Int) (hq : 0 ≤ q)
    (h : Reach a b) (h0 : PerkBound pid0 q a) : PerkBound pid0 q b := by
  induction h with
  | refl => exact h0
  | step h1 h2 ih => exact step_perkBound pid0 q hq h2 ih

/- Preservation of tenant existence and of the conservation law. -/

theorem map_userId_debitUpdate (uid : String) (cost : Int) (l : List User) :
    (debitUpdate uid cost l).map User.userId = l.map User.userId :=
  map_updateFirst User.userId (fun _ _ => rfl)

theorem map_userId_creditUpdate (uid : String) (amount : Int) (l : List User) :
    (creditUpdate uid amount l).map User.userId = l.map User.userId :=
  map_updateFirst User.userId (fun _ _ => rfl)

theorem exists_userId_transfer {l1 l2 : List User}
    (he : l2.map User.userId = l1.map User.userId)
    {z : String} (h : ∃ u ∈ l1, u.userId = z) : ∃ u ∈ l2, u.userId = z := by
  obtain ⟨u, hu, hz⟩ := h
  have hm : z ∈ l1.map User.userId := hz ▸ List.mem_map_of_mem User.userId hu
  rw [← he] at hm
  obtain ⟨v, hv, hvz⟩ := List.mem_map.mp hm
  exact ⟨v, hv, hvz⟩

theorem claim_tenants (snap db : DB) (pid uid : String) (h0 : TenantsExist db) :
    TenantsExist (claimPerkWith snap db pid uid).2 := by
  rcases claimPerkWith_cases snap db pid uid with
    ⟨o, he, _, _⟩ | ⟨user, pk, hit, hu, hp, hd, hq, hsn, he⟩ |
    ⟨user, pk, hit, w, hu, hp, hd, hq, hsn, he⟩ | ⟨user, pk, hit, hu, hp, hd, hq, he⟩
  · rw [he]; exact h0
  · rw [he]
    intro t ht
    exact exists_userId_transfer
      (by rw [map_userId_creditUpdate, map_userId_debitUpdate]) (h0 t ht)
  · rw [he]
    intro t ht
    exact exists_userId_transfer (map_userId_debitUpdate uid pk.pointsCost db.users)
      (h0 t ht)
  · rw [he]
    intro t ht
    exact exists_userId_transfer (map_userId_debitUpdate uid pk.pointsCost db.users)
      (h0 t ht)

theorem verify_tenants (snap db : DB) (tid lid : String) (ap : Bool) (r : String)
    (h0 : TenantsExist db) : TenantsExist (verifyTaskWith snap db tid lid ap r).db := by
  rcases verifyTaskWith_cases snap db tid lid ap r with
    ⟨he, _, _⟩ | ⟨caller, task, w, hc, ht, hsub, hap, hw, he⟩ | ⟨hap, hr, he⟩
  · rw [he]; exact h0
  · rw [he]
    intro t ht2
    have hmap := map_userId_creditUpdate task.tenantId task.pointsReward db.users
    rcases mem_updateFirst ht2 with hm | ⟨y, hy, hpy, rfl⟩
    · exact exists_userId_transfer hmap (h0 t hm)
    · exact exists_userId_transfer hmap (h0 y hy)
  · rw [he]
    intro t ht2
    rcases mem_updateFirst ht2 with hm | ⟨y, hy, hpy, rfl⟩
    · exact h0 t hm
    · exact h0 y hy

theorem sum_points_debitUpdate {uid : String} {cost : Int} {l : List User} {hit : User}
    (hd : l.find? (debitPred uid cost) = some hit) :
    ((debitUpdate uid cost l).map User.points).sum = (l.map User.points).sum - cost := by
  unfold debitUpdate
  rw [sum_map_updateFirst User.points hd]
  show (l.map User.points).sum + (hit.points - cost - hit.points)
      = (l.map User.points).sum - cost
  ring

theorem sum_points_creditUpdate {uid : String} {amount : Int} {l : List User} {z : User}
    (hz : l.find? (userPred uid) = some z) :
    ((creditUpdate uid amount l).map User.points).sum = (l.map User.points).sum + amount := by
  unfold creditUpdate
  rw [sum_map_updateFirst User.points hz]
  show (l.map User.points).sum + (z.points + amount - z.points)
      = (l.map User.points).sum + amount
  ring

theorem find?_userPred_debitUpdate {uid : String} {cost : Int} {l : List User} {hit : User}
    (hd : l.find? (debitPred uid cost) = some hit) :
    ∃ z, (debitUpdate uid cost l).find? (userPred uid) = some z := by
  have hhit := debitPred_eq (List.find?_some hd)
  have hmem : ({ hit with points := hit.points - cost } : User) ∈ debitUpdate uid cost l :=
    fmem_updateFirst hd
  exact exists_find?_eq_some hmem (userPred_of hhit.1)

theorem claim_conserv (snap db : DB) (pid uid : String) (hc : Conserv db) :
    Conserv (claimPerkWith snap db pid uid).2 := by
  rcases claimPerkWith_cases snap db pid uid with
    ⟨o, he, _, _⟩ | ⟨user, pk, hit, hu, hp, hd, hq, hsn, he⟩ |
    ⟨user, pk, hit, w, hu, hp, hd, hq, hsn, he⟩ | ⟨user, pk, hit, hu, hp, hd, hq, he⟩
  · rw [he]; exact hc
  · rw [he]
    obtain ⟨z, hz⟩ := find?_userPred_debitUpdate hd
    unfold Conserv sumBalances sumApprovedRewards sumSpent at hc ⊢
    simp only []
    rw [sum_points_creditUpdate hz, sum_points_debitUpdate hd]
    omega
  · rw [he]
    unfold Conserv sumBalances sumApprovedRewards sumSpent at hc ⊢
    simp only []
    rw [sum_points_debitUpdate hd, List.map_append, List.sum_append]
    have hnc : ([newClaim pid uid pk].map PerkClaim.pointsSpent).sum = pk.pointsCost := by
      simp [newClaim]
    rw [hnc]
    omega
  · rw [he]
    unfold Conserv sumBalances sumApprovedRewards sumSpent at hc ⊢
    simp only []
    rw [sum_points_debitUpdate hd, List.map_append, List.sum_append]
    have hnc : ([newClaim pid uid pk].map PerkClaim.pointsSpent).sum = pk.pointsCost := by
      simp [newClaim]
    rw [hnc]
    omega

theorem approve_conserv (snap db : DB) (tid lid : String) (r : String)
    (hs : GoodSnap snap db) (hten : TenantsExist db) (hc : Conserv db) :
    Conserv (verifyTaskWith snap db tid lid true r).db := by
  rcases verifyTaskWith_cases snap db tid lid true r with
    ⟨he, _, _⟩ | ⟨caller, task, w, hcal, ht, hsub, hap, hw, he⟩ | ⟨hap, hr, he⟩
  · rw [he]; exact hc
  · rw [he]
    have hwp := approvePred_eq (List.find?_some hw)
    have htp := (taskLandlordPred_eq (List.find?_some ht)).1
    have hagree := hs.2.2 task (List.mem_of_find?_eq_some ht) w
      (List.mem_of_find?_eq_some hw) (by rw [htp, hwp.1])
    obtain ⟨u0, hu0, hu0id⟩ := hten w (List.mem_of_find?_eq_some hw)
    obtain ⟨z, hz⟩ := exists_find?_eq_some hu0
      (userPred_of (by rw [hu0id, ← hagree.2]))
    unfold Conserv sumBalances sumApprovedRewards sumSpent at hc ⊢
    simp only []
    rw [sum_points_creditUpdate hz]
    unfold approveUpdate
    rw [sum_map_updateFirst approvedReward hw]
    have e1 : approvedReward { w with status := .approved } = w.pointsReward := by
      simp [approvedReward]
    have e2 : approvedReward w = 0 := by
      simp [approvedReward, hwp.2]
    rw [e1, e2]
    have := hagree.1
    omega
  · exact absurd hap (by simp)

theorem stepAC_tenants {a b : DB} (h : StepAC a b) (h0 : TenantsExist a) :
    TenantsExist b := by
  rcases h with ⟨snap, pid, uid, hs, rfl⟩ | ⟨snap, tid, lid, r, hs, rfl⟩
  · exact claim_tenants snap a pid uid h0
  · exact verify_tenants snap a tid lid true r h0

theorem stepAC_conserv {a b : DB} (h : StepAC a b) (hten : TenantsExist a)
    (hc : Conserv a) : Conserv b := by
  rcases h with ⟨snap, pid, uid, hs, rfl⟩ | ⟨snap, tid, lid, r, hs, rfl⟩
  · exact claim_conserv snap a pid uid hc
  · exact approve_conserv snap a tid lid r hs hten hc

theorem reachAC_tenants {a b : DB} (h : ReachAC a b) (h0 : TenantsExist a) :
    TenantsExist b := by
  induction h with
  | refl => exact h0
  | step h1 h2 ih => exact stepAC_tenants h2 ih

theorem reachAC_conserv {a b : DB} (h : ReachAC a b) (hten : TenantsExist a)
    (hc : Conserv a) : Conserv b := by
  induction h with
  | refl => exact hc
  | step h1 h2 ih => exact stepAC_conserv h2 (reachAC_tenants h1 hten) ih

theorem map_taskId_approveUpdate (tid : String) (l : List Task) :
    (approveUpdate tid l).map Task.taskId = l.map Task.taskId :=
  map_updateFirst Task.taskId (fun _ _ => rfl)

theorem validCreateTaskRequest_bounds {r : CreateTaskRequest}
    (h : validCreateTaskRequest r = true) :
    1 ≤ r.pointsReward ∧ r.pointsReward ≤ 500 := by
  unfold validCreateTaskRequest at h
  simp only [Bool.and_eq_true, decide_eq_true_eq] at h
  refine ⟨?_, ?_⟩ <;> tauto

/-- C2 (counterexample): create_perk accepts a request with
available_quantity = -5 (no validation constrains the field), producing
a fresh finite-stock perk whose claimed_count 0 already exceeds its
available_quantity -5, so the as-stated invariant fails with no
operation at all. -/
theorem c2_counterexample :
    (createPerk exDbTask "l1" exNegReq "p9").1 = .created ∧
    perkStock (createPerk exDbTask "l1" exNegReq "p9").2 "p9" = some (0, -5) ∧
    (-5 : Int) ≠ -1 ∧ ¬ ((0 : Int) ≤ (-5 : Int)) := by decide

/-- C2 (amended): for every perk with finite stock whose
available_quantity is non-negative, starting freshly created
(claimed_count = 0), claimed_count <= available_quantity holds after any
sequence of claim/approve/reject operations: the stock increment happens
only under the guard claimed_count < available_quantity. -/
theorem c2_no_overselling_amended (pid : String) (q : Int) (db0 db : DB)
    (hq : 0 ≤ q)
    (h0 : ∀ p ∈ db0.perks, p.perkId = pid →
      p.availableQuantity = q ∧ p.claimedCount = 0)
    (hr : Reach db0 db) :
    ∀ p ∈ db.perks, p.perkId = pid → p.claimedCount ≤ p.availableQuantity := by
  have hb : PerkBound pid q db0 := by
    intro p hp hid
    obtain ⟨h1, h2⟩ := h0 p hp hid
    exact ⟨h1, by omega⟩
  have hb2 := reach_perkBound pid q hq hr hb
  intro p hp hid
  obtain ⟨h1, h2⟩ := hb2 p hp hid
  omega

/-- C2 (witness): after a concrete claim on the 2-unit perk the updated
perk document keeps claimed_count within available_quantity. -/
theorem c2_witness :
    (claimPerkWith exDbCheap exDbCheap "p2" "u1").2.perks.find? (perkPred "p2")
      = some { exPerkCheap with claimedCount := 1 } ∧
    ({ exPerkCheap with claimedCount := 1 } : Perk).claimedCount
      ≤ ({ exPerkCheap with claimedCount := 1 } : Perk).availableQuantity := by
  refine ⟨by decide, ?_⟩
  exact c2_no_overselling_amended "p2" 2 exDbCheap
    (claimPerkWith exDbCheap exDbCheap "p2" "u1").2 (by decide) (by decide)
    (Reach.step (Reach.refl _) (Or.inl ⟨exDbCheap, "p2", "u1",
      by unfold GoodSnap GoodDocs SnapAgrees; decide, rfl⟩))
    { exPerkCheap with claimedCount := 1 } (by decide) rfl

/-- C3: starting from a state where every balance is non-negative, any
sequence of claim/approve/reject operations keeps every balance
non-negative: the debit is guarded by points >= cost, and awards and
refunds add validated positive amounts. -/
theorem c3_no_negative_balance (db0 db : DB) (hr : Reach db0 db)
    (h0 : ∀ u ∈ db0.users, 0 ≤ u.points) :
    ∀ u ∈ db.users, 0 ≤ u.points :=
  reach_nonNeg hr h0

/-- C3 (witness): after a concrete claim that debits 60 from a balance
of 100, the debited balance 40 is still non-negative. -/
theorem c3_witness :
    0 ≤ getPointsD (claimPerkWith exDbCheap exDbCheap "p2" "u1").2 "u1" := by
  have h := c3_no_negative_balance exDbCheap
    (claimPerkWith exDbCheap exDbCheap "p2" "u1").2
    (Reach.step (Reach.refl _) (Or.inl ⟨exDbCheap, "p2", "u1",
      by unfold GoodSnap GoodDocs SnapAgrees; decide, rfl⟩))
    (by decide)
  exact h { exTenant with points := 40 } (by decide)

/-- C4: starting from zero balances, no approved tasks and no recorded
claims, after any sequence of approve and claim operations the sum of
rewards of approved tasks minus the sum of recorded points_spent equals
the sum of balances. -/
theorem c4_conservation (db0 db : DB) (hr : ReachAC db0 db)
    (hz : ∀ u ∈ db0.users, u.points = 0)
    (hna : ∀ t ∈ db0.tasks, t.status ≠ .approved)
    (hnc : db0.perkClaims = [])
    (hten : TenantsExist db0) :
    sumApprovedRewards db - sumSpent db = sumBalances db := by
  have hc0 : Conserv db0 := by
    unfold Conserv sumApprovedRewards sumSpent sumBalances
    have h1 : (db0.tasks.map approvedReward).sum = 0 := by
      apply List.sum_eq_zero
      intro x hx
      obtain ⟨t, htm, rfl⟩ := List.mem_map.mp hx
      simp only [approvedReward, if_neg (hna t htm)]
    have h2 : (db0.users.map User.points).sum = 0 := by
      apply List.sum_eq_zero
      intro x hx
      obtain ⟨u, hum, rfl⟩ := List.mem_map.mp hx
      exact hz u hum
    rw [h1, h2, hnc]
    simp
  exact reachAC_conserv hr hten hc0

/-- C4 (witness): approving the concrete submitted 20-point task from
zero balances leaves 20 - 0 = 20 on both sides of the ledger. -/
theorem c4_witness :
    sumApprovedRewards (verifyTaskWith exDbZero exDbZero "t1" "l1" true "").db -
      sumSpent (verifyTaskWith exDbZero exDbZero "t1" "l1" true "").db =
      sumBalances (verifyTaskWith exDbZero exDbZero "t1" "l1" true "").db :=
  c4_conservation exDbZero _
    (ReachAC.step (ReachAC.refl _) (Or.inr ⟨exDbZero, "t1", "l1", "", by unfold GoodSnap GoodDocs SnapAgrees; decide, rfl⟩))
    (by decide) (by decide) rfl (by unfold TenantsExist; decide)

/-- C5: whenever claim_perk takes the refund branch (the stock
reservation failed after a successful debit), the balance of the caller is
restored to its pre-call value, the reported remaining balance is that
same value, and no PerkClaim record, perk change or task change is made
by the call. -/
theorem c5_refund_correctness (snap db : DB) (pid uid : String) (rem : Int)
    (hnd : (db.users.map User.userId).Nodup)
    (h : (claimPerkWith snap db pid uid).1 = .soldOutRefund rem) :
    getPointsD (claimPerkWith snap db pid uid).2 uid = getPointsD db uid ∧
    rem = getPointsD db uid ∧
    (claimPerkWith snap db pid uid).2.perkClaims = db.perkClaims ∧
    (claimPerkWith snap db pid uid).2.perks = db.perks ∧
    (claimPerkWith snap db pid uid).2.tasks = db.tasks := by
  rcases claimPerkWith_cases snap db pid uid with
    ⟨o, he, hs1, hs2⟩ | ⟨user, pk, hit, hu, hp, hd, hq, hsn, he⟩ |
    ⟨user, pk, hit, w, hu, hp, hd, hq, hsn, he⟩ | ⟨user, pk, hit, hu, hp, hd, hq, he⟩
  · rw [he] at h
    exact absurd h (hs2 rem)
  · have hhit := debitPred_eq (List.find?_some hd)
    have hfind : db.users.find? (userPred uid) = some hit :=
      find?_eq_some_of_nodup_key User.userId uid hnd (List.mem_of_find?_eq_some hd)
        (userPred_of hhit.1) (fun x hx => userPred_eq hx) hhit.1
    have hnd1 : ((debitUpdate uid pk.pointsCost db.users).map User.userId).Nodup := by
      rw [map_userId_debitUpdate]; exact hnd
    have hmem1 : ({ hit with points := hit.points - pk.pointsCost } : User)
        ∈ debitUpdate uid pk.pointsCost db.users := fmem_updateFirst hd
    have hfind1 : (debitUpdate uid pk.pointsCost db.users).find? (userPred uid)
        = some { hit with points := hit.points - pk.pointsCost } :=
      find?_eq_some_of_nodup_key User.userId uid hnd1 hmem1 (userPred_of hhit.1)
        (fun x hx => userPred_eq hx) hhit.1
    have hmem2 : ({ hit with points := hit.points - pk.pointsCost + pk.pointsCost } : User)
        ∈ creditUpdate uid pk.pointsCost (debitUpdate uid pk.pointsCost db.users) :=
      fmem_updateFirst hfind1
    have hnd2 : ((creditUpdate uid pk.pointsCost
        (debitUpdate uid pk.pointsCost db.users)).map User.userId).Nodup := by
      rw [map_userId_creditUpdate]; exact hnd1
    have hfind2 : (creditUpdate uid pk.pointsCost
        (debitUpdate uid pk.pointsCost db.users)).find? (userPred uid)
        = some { hit with points := hit.points - pk.pointsCost + pk.pointsCost } :=
      find?_eq_some_of_nodup_key User.userId uid hnd2 hmem2 (userPred_of hhit.1)
        (fun x hx => userPred_eq hx) hhit.1
    have hrem : rem = hit.points - pk.pointsCost + pk.pointsCost := by
      rw [he] at h
      have h2 : ClaimOutcome.soldOutRefund (hit.points - pk.pointsCost + pk.pointsCost)
          = .soldOutRefund rem := h
      cases h2
      rfl
    have hfind2x : (claimPerkWith snap db pid uid).2.users.find? (userPred uid)
        = some { hit with points := hit.points - pk.pointsCost + pk.pointsCost } := by
      rw [he]
      exact hfind2
    have hval : getPointsD (claimPerkWith snap db pid uid).2 uid
        = hit.points - pk.pointsCost + pk.pointsCost := by
      unfold getPointsD
      rw [hfind2x]
      rfl
    have hval0 : getPointsD db uid = hit.points := by
      unfold getPointsD
      rw [hfind]
      rfl
    refine ⟨?_, ?_, ?_, ?_, ?_⟩
    · rw [hval, hval0]
      omega
    · rw [hrem, hval0]
      omega
    · rw [he]
    · rw [he]
    · rw [he]
  · rw [he] at h
    exact absurd h (by simp)
  · rw [he] at h
    exact absurd h (by simp)

/-- C5 (witness): a claim whose snapshot saw stock but whose live state
is sold out refunds the 60-point debit, restoring the balance 100. -/
theorem c5_witness :
    getPointsD (claimPerkWith exDbCheap exDbCheapSold "p2" "u1").2 "u1"
      = getPointsD exDbCheapSold "u1" ∧
    (100 : Int) = getPointsD exDbCheapSold "u1" ∧
    (claimPerkWith exDbCheap exDbCheapSold "p2" "u1").2.perkClaims
      = exDbCheapSold.perkClaims ∧
    (claimPerkWith exDbCheap exDbCheapSold "p2" "u1").2.perks = exDbCheapSold.perks ∧
    (claimPerkWith exDbCheap exDbCheapSold "p2" "u1").2.tasks = exDbCheapSold.tasks :=
  c5_refund_correctness exDbCheap exDbCheapSold "p2" "u1" 100 (by decide) (by decide)

/-- C6: a PerkClaim record is written by a claim_perk call if and only
if the call succeeded (both the debit and the stock increment went
through); the record snapshots the perk cost as points_spent and
starts unfulfilled, and every failing call writes no record. -/
theorem c6_record_iff_success (snap db : DB) (pid uid : String) :
    ((claimPerkWith snap db pid uid).2.perkClaims = db.perkClaims ∧
      ∀ rem, (claimPerkWith snap db pid uid).1 ≠ .success rem) ∨
    (∃ rem pk, (claimPerkWith snap db pid uid).1 = .success rem ∧
      snap.perks.find? (perkPred pid) = some pk ∧
      (claimPerkWith snap db pid uid).2.perkClaims
        = db.perkClaims ++ [newClaim pid uid pk] ∧
      (newClaim pid uid pk).pointsSpent = pk.pointsCost ∧
      (newClaim pid uid pk).fulfilled = false) := by
  rcases claimPerkWith_cases snap db pid uid with
    ⟨o, he, hs1, hs2⟩ | ⟨user, pk, hit, hu, hp, hd, hq, hsn, he⟩ |
    ⟨user, pk, hit, w, hu, hp, hd, hq, hsn, he⟩ | ⟨user, pk, hit, hu, hp, hd, hq, he⟩
  · left
    refine ⟨by rw [he], fun rem h2 => ?_⟩
    rw [he] at h2
    exact hs1 rem h2
  · left
    refine ⟨by rw [he], fun rem h2 => ?_⟩
    rw [he] at h2
    exact absurd h2 (by simp)
  · right
    exact ⟨hit.points - pk.pointsCost, pk, by rw [he], hp, by rw [he], rfl, rfl⟩
  · right
    exact ⟨hit.points - pk.pointsCost, pk, by rw [he], hp, by rw [he], rfl, rfl⟩

/-- C7 (counterexample): with balance 100 and cost 150 but the perk
already fully claimed, claim_perk answers with the sold-out message, not
with InsufficientPoints: the availability check runs before the points
check. -/
theorem c7_counterexample :
    getPointsD exDbSoldOut "u1" = 100 ∧ exPerkSoldOut.pointsCost = 150 ∧
    (claimPerk exDbSoldOut "p1" "u1").1 = .soldOutPre 100 ∧
    (claimPerk exDbSoldOut "p1" "u1").1 ≠ .insufficientPre 100 ∧
    (claimPerk exDbSoldOut "p1" "u1").1 ≠ .insufficientAtomic 100 := by decide

/-- C7 (amended): when the caller is an eligible tenant, the perk exists
with stock still available (or unlimited), and the snapshot balance is
below the cost, claim_perk returns the insufficient-points response with
the unchanged balance, mutating nothing. -/
theorem c7_insufficient_amended (snap db : DB) (pid uid : String)
    (user : User) (pk : Perk)
    (hu : snap.users.find? (userPred uid) = some user)
    (hrole : user.role = "tenant")
    (hp : snap.perks.find? (perkPred pid) = some pk)
    (hel : pk.landlordId = user.landlordId)
    (hstock : pk.availableQuantity = -1 ∨ pk.claimedCount < pk.availableQuantity)
    (hpts : user.points < pk.pointsCost) :
    claimPerkWith snap db pid uid = (.insufficientPre user.points, db) := by
  unfold claimPerkWith
  simp only [hu]
  rw [if_neg (show ¬(user.role ≠ "tenant") by simp [hrole])]
  simp only [hp]
  rw [if_neg (show ¬(pk.landlordId ≠ user.landlordId) by simp [hel])]
  rw [if_neg (show ¬(pk.availableQuantity ≠ -1 ∧
      pk.availableQuantity ≤ pk.claimedCount) by
    rcases hstock with h | h
    · simp [h]
    · intro hcon
      omega)]
  rw [if_pos hpts]

/-- C7 (witness): balance 100 against a 150-point perk with stock
returns InsufficientPoints and leaves the state untouched. -/
theorem c7_witness :
    claimPerkWith exDbOpen exDbOpen "p1" "u1" = (.insufficientPre 100, exDbOpen) :=
  c7_insufficient_amended exDbOpen exDbOpen "p1" "u1" exTenant exPerkOpen
    (by decide) rfl (by decide) rfl (by decide) (by decide)

/-- C8 (counterexample): rejecting the concrete submitted task with a
whitespace-only reason does return the validation error with the task
untouched, but the call has already performed two store accesses (the
auth user lookup and the task find_one) before the reason check fires,
so the failure is not raised before any store access. -/
theorem c8_counterexample :
    (verifyTask exDbTask "t1" "l1" false "   ").outcome = .validationError ∧
    (verifyTask exDbTask "t1" "l1" false "   ").db = exDbTask ∧
    (verifyTask exDbTask "t1" "l1" false "   ").events
      = [.readUsers, .readTasks] ∧
    [StoreEvent.readUsers, StoreEvent.readTasks] ≠ ([] : List StoreEvent) := by
  decide

/-- C8 (amended): a reject call by the landlord of the task on a submitted
task with an empty-after-trim reason returns the validation error, after
the auth user read and the task read but before any store write, and
leaves the database unchanged. -/
theorem c8_reject_validation_amended (snap db : DB) (tid lid reason : String)
    (caller : User) (task : Task)
    (hc : snap.users.find? (userPred lid) = some caller)
    (hrole : caller.role = "landlord")
    (ht : snap.tasks.find? (taskLandlordPred tid lid) = some task)
    (hst : task.status = .submitted)
    (hreason : pyStrip reason = "") :
    verifyTaskWith snap db tid lid false reason =
      ⟨.validationError, db, [.readUsers, .readTasks]⟩ := by
  unfold verifyTaskWith
  simp only [hc]
  rw [if_neg (show ¬(caller.role ≠ "landlord") by simp [hrole])]
  simp only [ht]
  rw [if_neg (show ¬(task.status ≠ .submitted) by simp [hst])]
  rw [if_neg (show ¬(false = true) by simp)]
  rw [if_pos hreason]

/-- C8 (witness): the amended statement at the concrete database. -/
theorem c8_witness :
    verifyTaskWith exDbTask exDbTask "t1" "l1" false " " =
      ⟨.validationError, exDbTask, [.readUsers, .readTasks]⟩ :=
  c8_reject_validation_amended exDbTask exDbTask "t1" "l1" " " exLandlord exTask
    (by decide) rfl (by decide) rfl (by decide)

/-- C9 (counterexample): the CreatePerkRequest validator accepts
available_quantity = -5 (a negative value that is not the -1 sentinel),
and create_perk then creates the perk, contradicting the claimed
rejection. -/
theorem c9_counterexample :
    validCreatePerkRequest exNegReq = true ∧
    exNegReq.availableQuantity = -5 ∧ (-5 : Int) < 0 ∧ (-5 : Int) ≠ -1 ∧
    (createPerk exDbTask "l1" exNegReq "p9").1 = .created ∧
    perkStock (createPerk exDbTask "l1" exNegReq "p9").2 "p9" = some (0, -5) := by
  decide

/-- C9 (amended): request validation constrains only title, description
and points_cost — acceptance is independent of available_quantity, whose
default is the -1 sentinel — and every accepted request creates the perk
with claimed_count 0 and the requested available_quantity as given. -/
theorem c9_quantity_amended (r : CreatePerkRequest) (q : Int) (db : DB)
    (lid nid : String) (caller : User)
    (hc : db.users.find? (userPred lid) = some caller)
    (hrole : caller.role = "landlord")
    (hv : validCreatePerkRequest r = true) :
    validCreatePerkRequest { r with availableQuantity := q }
      = validCreatePerkRequest r ∧
    ({ title := "t", pointsCost := 1 } : CreatePerkRequest).availableQuantity = -1 ∧
    (createPerk db lid r nid).1 = .created ∧
    (createPerk db lid r nid).2.perks = db.perks ++
      [{ perkId := nid, pointsCost := r.pointsCost,
         availableQuantity := r.availableQuantity, landlordId := lid,
         claimedCount := 0 }] := by
  have he : createPerk db lid r nid = (.created,
      { db with perks := db.perks ++
          [{ perkId := nid, pointsCost := r.pointsCost,
             availableQuantity := r.availableQuantity, landlordId := lid,
             claimedCount := 0 }] }) := by
    unfold createPerk
    rw [if_neg (show ¬¬(validCreatePerkRequest r = true) from not_not_intro hv)]
    simp only [hc]
    rw [if_neg (show ¬(caller.role ≠ "landlord") by simp [hrole])]
  exact ⟨rfl, rfl, by rw [he], by rw [he]⟩

/-- C9 (witness): the amended statement at the concrete database with
the quantity -5 request. -/
theorem c9_witness :
    validCreatePerkRequest { exNegReq with availableQuantity := 7 }
      = validCreatePerkRequest exNegReq ∧
    ({ title := "t", pointsCost := 1 } : CreatePerkRequest).availableQuantity = -1 ∧
    (createPerk exDbTask "l1" exNegReq "p9").1 = .created ∧
    (createPerk exDbTask "l1" exNegReq "p9").2.perks = exDbTask.perks ++
      [{ perkId := "p9", pointsCost := exNegReq.pointsCost,
         availableQuantity := exNegReq.availableQuantity, landlordId := "l1",
         claimedCount := 0 }] :=
  c9_quantity_amended exNegReq 7 exDbTask "l1" "p9" exLandlord (by decide) rfl
    (by decide)

/-- C10: the CreateTaskRequest validator accepts points_reward only in
[1, 500] (10 when omitted); out-of-range rewards are rejected with the
database untouched, and every task a create_task call adds carries a
reward in [1, 500]. -/
theorem c10_reward_cap (r : CreateTaskRequest) (db : DB) (lid nid : String) :
    (validCreateTaskRequest r = true →
      1 ≤ r.pointsReward ∧ r.pointsReward ≤ 500) ∧
    (¬(1 ≤ r.pointsReward ∧ r.pointsReward ≤ 500) →
      createTask db lid r nid = (.validationError, db)) ∧
    (∀ t ∈ (createTask db lid r nid).2.tasks,
      t ∈ db.tasks ∨ (1 ≤ t.pointsReward ∧ t.pointsReward ≤ 500)) ∧
    ({ title := "Clean", tenantId := "u1" } : CreateTaskRequest).pointsReward = 10 := by
  refine ⟨fun hv => validCreateTaskRequest_bounds hv, fun hb => ?_, fun t htm => ?_, rfl⟩
  · have hv : validCreateTaskRequest r = false := by
      by_cases hv2 : validCreateTaskRequest r = true
      · exact absurd (validCreateTaskRequest_bounds hv2) hb
      · simpa using hv2
    unfold createTask
    rw [if_pos (show ¬(validCreateTaskRequest r = true) by simp [hv])]
  · unfold createTask at htm
    split at htm
    · exact Or.inl htm
    next hval =>
      split at htm
      · exact Or.inl htm
      next caller hc2 =>
        split at htm
        · exact Or.inl htm
        next hrole2 =>
          split at htm
          · exact Or.inl htm
          next ten hten2 =>
            rcases List.mem_append.mp htm with hm | hm
            · exact Or.inl hm
            · right
              have hb := validCreateTaskRequest_bounds (not_not.mp hval)
              have hm2 := List.mem_singleton.mp hm
              rw [hm2]
              exact hb

/-- C10 (witness): the default reward 10 is in range and a 501-point
request is rejected unchanged. -/
theorem c10_witness :
    ((1:Int) ≤ ({ title := "Clean", tenantId := "u1" } : CreateTaskRequest).pointsReward ∧
      ({ title := "Clean", tenantId := "u1" } : CreateTaskRequest).pointsReward ≤ 500) ∧
    createTask exDbTask "l1"
        { title := "Clean", tenantId := "u1", pointsReward := 501 } "t9"
      = (.validationError, exDbTask) :=
  ⟨(c10_reward_cap { title := "Clean", tenantId := "u1" } exDbTask "l1" "t9").1
      (by decide),
   (c10_reward_cap { title := "Clean", tenantId := "u1", pointsReward := 501 }
      exDbTask "l1" "t9").2.1 (by decide)⟩

/-- C1: two approve calls that both read the task while its status was
submitted (the retried/concurrent double approval the conditional update
guards against): the first call flips the task to approved and credits
the tenant balance with points_reward exactly once; the conditional update
of the second call matches no document, so it answers with the
already-verified conflict and changes nothing. -/
theorem c1_at_most_once_award (db0 : DB) (tid lid reason : String)
    (caller : User) (task : Task) (tenant : User)
    (hc : db0.users.find? (userPred lid) = some caller)
    (hrole : caller.role = "landlord")
    (ht : db0.tasks.find? (taskLandlordPred tid lid) = some task)
    (hst : task.status = .submitted)
    (hndt : (db0.tasks.map Task.taskId).Nodup)
    (hndu : (db0.users.map User.userId).Nodup)
    (hten : db0.users.find? (userPred task.tenantId) = some tenant) :
    (verifyTaskWith db0 db0 tid lid true reason).outcome = .approvedOk ∧
    (verifyTaskWith db0 (verifyTaskWith db0 db0 tid lid true reason).db
        tid lid true reason).outcome = .alreadyVerified ∧
    (verifyTaskWith db0 (verifyTaskWith db0 db0 tid lid true reason).db
        tid lid true reason).db = (verifyTaskWith db0 db0 tid lid true reason).db ∧
    getPointsD (verifyTaskWith db0 db0 tid lid true reason).db task.tenantId
      = tenant.points + task.pointsReward ∧
    (verifyTaskWith db0 db0 tid lid true reason).db.tasks.find? (taskIdPred tid)
      = some { task with status := TaskStatus.approved } := by
  have htp := taskLandlordPred_eq (List.find?_some ht)
  have hap : approvePred tid task = true := approvePred_of htp.1 hst
  have hfind1 : db0.tasks.find? (approvePred tid) = some task :=
    find?_eq_some_of_nodup_key Task.taskId tid hndt (List.mem_of_find?_eq_some ht)
      hap (fun x hx => (approvePred_eq hx).1) htp.1
  have he1 : verifyTaskWith db0 db0 tid lid true reason =
      ⟨.approvedOk,
        { db0 with
            tasks := approveUpdate tid db0.tasks
            users := creditUpdate task.tenantId task.pointsReward db0.users },
        [.readUsers, .readTasks, .writeTasks, .writeUsers, .readTasks]⟩ := by
    unfold verifyTaskWith
    simp only [hc]
    rw [if_neg (show ¬(caller.role ≠ "landlord") by simp [hrole])]
    simp only [ht]
    rw [if_neg (show ¬(task.status ≠ .submitted) by simp [hst])]
    simp only [if_true]
    simp only [hfind1]
  have hkill : (approveUpdate tid db0.tasks).find? (approvePred tid) = none := by
    unfold approveUpdate
    exact find?_updateFirst_none Task.taskId tid hndt
      (fun x hx => (approvePred_eq hx).1)
      (fun x hx => by simp [approvePred])
  have he2 : verifyTaskWith db0
      (verifyTaskWith db0 db0 tid lid true reason).db tid lid true reason =
      ⟨.alreadyVerified, (verifyTaskWith db0 db0 tid lid true reason).db,
        [.readUsers, .readTasks, .writeTasks]⟩ := by
    rw [he1]
    unfold verifyTaskWith
    simp only [hc]
    rw [if_neg (show ¬(caller.role ≠ "landlord") by simp [hrole])]
    simp only [ht]
    rw [if_neg (show ¬(task.status ≠ .submitted) by simp [hst])]
    simp only [if_true]
    simp only [hkill]
  have go : getPointsD (verifyTaskWith db0 db0 tid lid true reason).db task.tenantId
      = tenant.points + task.pointsReward := by
    have htenid : tenant.userId = task.tenantId := userPred_eq (List.find?_some hten)
    have hndu2 : ((creditUpdate task.tenantId task.pointsReward
        db0.users).map User.userId).Nodup := by
      rw [map_userId_creditUpdate]
      exact hndu
    have hmem : ({ tenant with points := tenant.points + task.pointsReward } : User)
        ∈ creditUpdate task.tenantId task.pointsReward db0.users :=
      fmem_updateFirst hten
    have hfu : (creditUpdate task.tenantId task.pointsReward db0.users).find?
        (userPred task.tenantId)
        = some { tenant with points := tenant.points + task.pointsReward } :=
      find?_eq_some_of_nodup_key User.userId task.tenantId hndu2 hmem
        (userPred_of htenid) (fun x hx => userPred_eq hx) htenid
    have hux : (verifyTaskWith db0 db0 tid lid true reason).db.users.find?
        (userPred task.tenantId)
        = some { tenant with points := tenant.points + task.pointsReward } := by
      rw [he1]
      exact hfu
    unfold getPointsD
    rw [hux]
    rfl
  have gt : (verifyTaskWith db0 db0 tid lid true reason).db.tasks.find?
      (taskIdPred tid) = some { task with status := TaskStatus.approved } := by
    have hndt2 : ((approveUpdate tid db0.tasks).map Task.taskId).Nodup := by
      rw [map_taskId_approveUpdate]
      exact hndt
    have hmem : ({ task with status := TaskStatus.approved } : Task)
        ∈ approveUpdate tid db0.tasks := fmem_updateFirst hfind1
    have hfx : (approveUpdate tid db0.tasks).find? (taskIdPred tid)
        = some { task with status := TaskStatus.approved } :=
      find?_eq_some_of_nodup_key Task.taskId tid hndt2 hmem
        (taskIdPred_of htp.1) (fun x hx => taskIdPred_eq hx) htp.1
    rw [he1]
    exact hfx
  refine ⟨?_, ?_, ?_, go, gt⟩
  · rw [he1]
  · rw [he2]
  · rw [he2]

/-- C1 (witness): the double approval at the concrete database: first
call approves and pays 20 points once, second call conflicts. -/
theorem c1_witness :
    (verifyTaskWith exDbTask exDbTask "t1" "l1" true "").outcome = .approvedOk ∧
    (verifyTaskWith exDbTask (verifyTaskWith exDbTask exDbTask "t1" "l1" true "").db
        "t1" "l1" true "").outcome = .alreadyVerified ∧
    (verifyTaskWith exDbTask (verifyTaskWith exDbTask exDbTask "t1" "l1" true "").db
        "t1" "l1" true "").db
      = (verifyTaskWith exDbTask exDbTask "t1" "l1" true "").db ∧
    getPointsD (verifyTaskWith exDbTask exDbTask "t1" "l1" true "").db exTask.tenantId
      = exTenant.points + exTask.pointsReward ∧
    (verifyTaskWith exDbTask exDbTask "t1" "l1" true "").db.tasks.find?
        (taskIdPred "t1") = some { exTask with status := TaskStatus.approved } :=
  c1_at_most_once_award exDbTask "t1" "l1" "" exLandlord exTask exTenant
    (by decide) rfl (by decide) rfl (by decide) (by decide) (by decide)

/-- C6 (witness): the concrete successful claim writes exactly the
snapshot-cost audit record. -/
theorem c6_witness :
    (claimPerk exDbCheap "p2" "u1").2.perkClaims
      = exDbCheap.perkClaims ++ [newClaim "p2" "u1" exPerkCheap] := by
  rcases c6_record_iff_success exDbCheap exDbCheap "p2" "u1" with
    ⟨h1, h2⟩ | ⟨rem, pk, ho, hpk, hcl, h4, h5⟩
  · exact absurd (show (claimPerkWith exDbCheap exDbCheap "p2" "u1").1
      = .success 40 from by decide) (h2 40)
  · have h6 : some pk = some exPerkCheap := by
      rw [← hpk]
      decide
    cases h6
    exact hcl

end RentShield
